import Mathlib

/-!
Shallow embedding of the asn2ip repository (Go) for checking its
natural-language specification.

Modelling conventions, used throughout:

* Go maps with string keys are modelled as association lists together with
  `lookupA` / `upsert` / `eraseKey`; `upsert` realises Go's `m[k] = v`
  (last write wins) and `eraseKey` realises `delete(m, k)`.
* The server side of a TCP connection is modelled as the list of
  newline-terminated lines it will deliver, each already stripped of the
  terminating `'\n'` and of trailing `'\r'`s exactly as `readLine` in
  `pkg/asn2ip/asn2ip.go` strips them.  The byte-level `readLine` is embedded
  separately (`readLineBytes` / `readLine`) and related to the line model by
  `readLine_encodes` / `readLine_nil`; reading past the end of the list is a
  read failure, as it is for a closed connection.
* Transport writes are modelled as always succeeding and are logged in a
  `writes : List String` field so that theorems can talk about what was sent.
* Wall-clock time is a `Nat` parameter threaded to the memory backend
  (`memGet now` / `memSet now` model `time.Since` / `time.Now`).
* A Go `error` result is the `err` constructor of `FetchResult`; a Go
  `panic` (the `panic(err)` in `fetch`) is the distinct `crash` constructor,
  since a panic does not return to the caller.
-/

/-- Association-list lookup; models reading a Go map with string keys. -/
def lookupA {α : Type} : List (String × α) → String → Option α
  | [], _ => none
  | (k, v) :: rest, key => if k = key then some v else lookupA rest key

/-- Removing every binding of a key; models Go's `delete(m, k)`. -/
def eraseKey {α : Type} : List (String × α) → String → List (String × α)
  | [], _ => []
  | p :: rest, key => if p.1 = key then eraseKey rest key else p :: eraseKey rest key

/-- Insert-or-replace; models Go's `m[k] = v`. -/
def upsert {α : Type} (l : List (String × α)) (key : String) (v : α) : List (String × α) :=
  (key, v) :: eraseKey l key

/-- Numeric value of a list of decimal digits (most significant first). -/
def decVal (cs : List Char) : Nat :=
  cs.foldl (fun a c => a * 10 + (c.toNat - '0'.toNat)) 0

/-- Models Go's `dtoi` as used on the mask part of `net.ParseCIDR`: the whole
string must be a nonempty run of decimal digits. -/
def decValue? (cs : List Char) : Option Nat :=
  if cs ≠ [] ∧ cs.all Char.isDigit then some (decVal cs) else none

/-- Hexadecimal digit test, as accepted by Go's `xtoi`. -/
def hexDigit (c : Char) : Bool :=
  c.isDigit || ('a' ≤ c && c ≤ 'f') || ('A' ≤ c && c ≤ 'F')

/-- Value of one hexadecimal digit. -/
def hexVal1 (c : Char) : Nat :=
  if c.isDigit then c.toNat - '0'.toNat
  else if 'a' ≤ c then c.toNat - 'a'.toNat + 10
  else c.toNat - 'A'.toNat + 10

/-- Numeric value of a list of hexadecimal digits (most significant first). -/
def hexVal (cs : List Char) : Nat :=
  cs.foldl (fun a c => a * 16 + hexVal1 c) 0

/-- Splitting a character list at every occurrence of a separator; the result
is always nonempty, mirroring `strings.Split`. -/
def splitChar (sep : Char) : List Char → List (List Char)
  | [] => [[]]
  | c :: rest =>
    let r := splitChar sep rest
    if c = sep then [] :: r
    else
      match r with
      | [] => [[c]]
      | g :: gs => (c :: g) :: gs

/-- Splitting at the first occurrence of a separator, if any. -/
def splitFirst (sep : Char) : List Char → Option (List Char × List Char)
  | [] => none
  | c :: rest =>
    if c = sep then some ([], rest)
    else
      match splitFirst sep rest with
      | none => none
      | some (a, b) => some (c :: a, b)

/-- Splitting at the first occurrence of a double colon, if any. -/
def splitDC : List Char → Option (List Char × List Char)
  | [] => none
  | ':' :: ':' :: rest => some ([], rest)
  | c :: rest => (splitDC rest).map fun p => (c :: p.1, p.2)

/-- One dotted-decimal field of an IPv4 address, as accepted by Go's
`parseIPv4`: nonempty decimal digits, value at most 255, no redundant
leading zero. -/
def v4Field? (cs : List Char) : Option Nat :=
  if cs ≠ [] ∧ cs.all Char.isDigit ∧ ¬(cs.length > 1 ∧ cs.head? = some '0') ∧
      decVal cs ≤ 255 then
    some (decVal cs)
  else none

/-- Modelled after Go's `net.parseIPv4` (standard library, not part of this
repository): exactly four dotted-decimal fields.  Returns the address as a
32-bit value. -/
def parseV4 (cs : List Char) : Option Nat :=
  match splitChar '.' cs with
  | [a, b, c, d] =>
    match v4Field? a, v4Field? b, v4Field? c, v4Field? d with
    | some x, some y, some z, some w => some (((x * 256 + y) * 256 + z) * 256 + w)
    | _, _, _, _ => none
  | _ => none

/-- One 16-bit hexadecimal group of an IPv6 address, as accepted by Go's
`xtoi` with the `n > 0xFFFF` bound of `parseIPv6`. -/
def hexGroup? (cs : List Char) : Option Nat :=
  if cs ≠ [] ∧ cs.all hexDigit ∧ hexVal cs ≤ 0xFFFF then some (hexVal cs) else none

/-- Parse a run of colon-separated IPv6 groups; when `allowV4` is set the
final group may be an embedded dotted-decimal IPv4 address (4 bytes), as in
Go's `parseIPv6`.  Returns the byte count together with the big-endian
value of the run. -/
def v6Groups (allowV4 : Bool) : List (List Char) → Option (Nat × Nat)
  | [] => some (0, 0)
  | [g] =>
    if allowV4 ∧ g.contains '.' then
      match parseV4 g with
      | some v => some (4, v)
      | none => none
    else
      match hexGroup? g with
      | some v => some (2, v)
      | none => none
  | g :: rest =>
    match hexGroup? g with
    | none => none
    | some v =>
      match v6Groups allowV4 rest with
      | none => none
      | some (n, w) => some (n + 2, v * 2 ^ (8 * n) + w)

/-- Colon-separated groups of a (half of an) IPv6 literal; the empty string
holds no group. -/
def groupsOf (cs : List Char) : List (List Char) :=
  if cs = [] then [] else splitChar ':' cs

/-- Modelled after Go's `net.parseIPv6Zone`/`parseIPv6` (standard library,
not part of this repository): an optional `%zone` suffix is stripped, at
most one `::` ellipsis is allowed, the groups must fill exactly 16 bytes
without an ellipsis and strictly fewer with one, and an embedded IPv4
address may only end the literal.  Returns the address as a 128-bit
value. -/
def parseV6 (cs0 : List Char) : Option Nat :=
  let cs := match splitFirst '%' cs0 with
    | none => cs0
    | some (host, _) => host
  match splitDC cs with
  | none =>
    match v6Groups true (groupsOf cs) with
    | some (16, v) => some v
    | _ => none
  | some (l, r) =>
    if splitDC r ≠ none then none
    else
      match v6Groups false (groupsOf l), v6Groups true (groupsOf r) with
      | some (nl, vl), some (nr, vr) =>
        if nl + nr < 16 then some (vl * 2 ^ (8 * (16 - nl)) + vr) else none
      | _, _ => none

/-- An IP network as produced by `net.ParseCIDR`: family tag, masked
address (32-bit for IPv4, 128-bit for IPv6) and prefix length. -/
structure IPNet where
  isV4 : Bool
  addr : Nat
  plen : Nat
deriving DecidableEq, Repr

/-- Keep only the top `n` of `len` address bits, as `ip.Mask(m)` does. -/
def maskAddr (addr len n : Nat) : Nat :=
  (addr >>> (len - n)) <<< (len - n)

/-- Modelled after Go's `net.ParseCIDR` (standard library, not part of this
repository): split at the first `/`, parse the address as IPv4 first and as
IPv6 otherwise, parse the mask as a bounded decimal, and return the masked
network.  It accepts both IP families regardless of context. -/
def parseCIDR (s : String) : Option IPNet :=
  match splitFirst '/' s.data with
  | none => none
  | some (a, m) =>
    match decValue? m with
    | none => none
    | some n =>
      match parseV4 a with
      | some ip => if n ≤ 32 then some ⟨true, maskAddr ip 32 n, n⟩ else none
      | none =>
        match parseV6 a with
        | some ip => if n ≤ 128 then some ⟨false, maskAddr ip 128 n, n⟩ else none
        | none => none

/-- Result of a Go call in this embedding: a normal value, a returned
`error` carrying its message, or a `panic` (which never returns to the
caller; `crash` models it). -/
inductive FetchResult (α : Type) where
  | ok (v : α)
  | err (msg : String)
  | crash (msg : String)
deriving DecidableEq, Repr

/-- Does a `FetchResult` hold a normal value? -/
def FetchResult.isOk {α : Type} : FetchResult α → Bool
  | .ok _ => true
  | _ => false

/-- Outcome of one per-AS/per-version query. -/
abbrev FetchOutcome := FetchResult (List IPNet)

/-- The token loop inside the `state == "response"` branch of `fetch`
(`pkg/asn2ip/asn2ip.go`): each token must be accepted by `net.ParseCIDR`;
the first failing token is reported. -/
def parseNets : List String → Except String (List IPNet)
  | [] => .ok []
  | n :: rest =>
    match parseCIDR n with
    | none => .error n
    | some net =>
      match parseNets rest with
      | .error t => .error t
      | .ok nets => .ok (net :: nets)

/-- Splitting a line at every single space, as `strings.Split(line, " ")`
does for the one-space separator the source passes. -/
def splitSp (line : String) : List String :=
  (splitChar ' ' line.data).map (fun cs => String.mk cs)

/-- The read loop of `fetch` in `pkg/asn2ip/asn2ip.go`, over the line model
of the connection.  An exhausted connection makes `readLine` fail, which the
source passes to `panic(err)`; the loop otherwise dispatches on the `"D"` /
`"C"` markers and on the `"start"` / `"response"` states exactly as the
source does (`line.data.head?` is the `line[0]` check, guarded by the
emptiness test).  Returns the outcome and the lines left unread. -/
def fetchLoop (as : String) : List String → String → List IPNet →
    FetchOutcome × List String
  | [], _, _ => (.crash "failed to read next byte from connection", [])
  | line :: rest, state, response =>
    if line = "D" then (.err ("as " ++ as ++ " not found"), rest)
    else if line = "C" then (.ok response, rest)
    else if state = "start" then
      if line.length ≤ 0 then (.err ("empty response for as " ++ as), rest)
      else if line.data.head? ≠ some 'A' then
        (.err ("received invalid response for as " ++ as), rest)
      else fetchLoop as rest "response" response
    else if state = "response" then
      match parseNets (splitSp line) with
      | .error t => (.err ("failed to parse network " ++ t ++ " for as " ++ as), rest)
      | .ok nets => fetchLoop as rest "response" (response ++ nets)
    else fetchLoop as rest state response

/-- The command text chosen by the leading version dispatch of `fetch`. -/
def fetchCmd (as : String) (version : Nat) : Option String :=
  if version = 4 then some ("!gAS" ++ as ++ "\n")
  else if version = 6 then some ("!6AS" ++ as ++ "\n")
  else none

/-- The function `fetch` of `pkg/asn2ip/asn2ip.go`: choose the command for
the version (rejecting unknown versions before writing anything), write it,
and run the read loop.  Returns the outcome, the lines left unread and the
list of strings written to the connection. -/
def fetch (conn : List String) (as : String) (version : Nat) :
    FetchOutcome × List String × List String :=
  match fetchCmd as version with
  | none => (.err ("unknown ip protocol version " ++ toString version), conn, [])
  | some cmd =>
    let r := fetchLoop as conn "start" []
    (r.1, r.2, [cmd])

/-- The per-AS inner map `{"ipv4": ..., "ipv6": ...}` of a fetch result. -/
structure VerResult where
  ipv4 : List IPNet
  ipv6 : List IPNet
deriving DecidableEq, Repr

/-- What one run of the per-AS loop of `fetcher.Fetch` produces: the
outcome, the unread rest of the connection, the strings written, and a log
of every per-AS/per-version query issued with its outcome. -/
structure BatchOut where
  outcome : FetchResult (List (String × VerResult))
  conn : List String
  writes : List String
  qlog : List (String × Nat × FetchOutcome)
deriving Repr

/-- The `for _, v := range asn` loop of `fetcher.Fetch`
(`pkg/asn2ip/asn2ip.go`): seed `result[v]` with empty lists, then issue the
IPv4 query if requested and the IPv6 query if requested, aborting the whole
batch on the first returned error (a panic aborts it too, by unwinding). -/
def fetchBatch (ipv4 ipv6 : Bool) : List String → List String →
    List (String × VerResult) → BatchOut
  | [], conn, acc => ⟨.ok acc, conn, [], []⟩
  | a :: rest, conn, acc =>
    let acc0 := upsert acc a ⟨[], []⟩
    if ipv4 then
      match fetch conn a 4 with
      | (.ok nets4, c1, w1) =>
        let acc1 := upsert acc0 a ⟨nets4, []⟩
        if ipv6 then
          match fetch c1 a 6 with
          | (.ok nets6, c2, w2) =>
            let acc2 := upsert acc1 a ⟨nets4, nets6⟩
            let r := fetchBatch ipv4 ipv6 rest c2 acc2
            ⟨r.outcome, r.conn, w1 ++ w2 ++ r.writes,
              (a, 4, .ok nets4) :: (a, 6, .ok nets6) :: r.qlog⟩
          | (.err e, c2, w2) => ⟨.err e, c2, w1 ++ w2, [(a, 4, .ok nets4), (a, 6, .err e)]⟩
          | (.crash m, c2, w2) =>
            ⟨.crash m, c2, w1 ++ w2, [(a, 4, .ok nets4), (a, 6, .crash m)]⟩
        else
          let r := fetchBatch ipv4 ipv6 rest c1 acc1
          ⟨r.outcome, r.conn, w1 ++ r.writes, (a, 4, .ok nets4) :: r.qlog⟩
      | (.err e, c1, w1) => ⟨.err e, c1, w1, [(a, 4, .err e)]⟩
      | (.crash m, c1, w1) => ⟨.crash m, c1, w1, [(a, 4, .crash m)]⟩
    else
      if ipv6 then
        match fetch conn a 6 with
        | (.ok nets6, c1, w1) =>
          let r := fetchBatch ipv4 ipv6 rest c1 (upsert acc0 a ⟨[], nets6⟩)
          ⟨r.outcome, r.conn, w1 ++ r.writes, (a, 6, .ok nets6) :: r.qlog⟩
        | (.err e, c1, w1) => ⟨.err e, c1, w1, [(a, 6, .err e)]⟩
        | (.crash m, c1, w1) => ⟨.crash m, c1, w1, [(a, 6, .crash m)]⟩
      else
        let r := fetchBatch ipv4 ipv6 rest conn acc0
        ⟨r.outcome, r.conn, r.writes, r.qlog⟩

/-- What `fetcher.Fetch` produces: the outcome, whether a connection was
dialed, the strings written (dial modelled as succeeding, writes logged in
order including the deferred `exit`), and the per-query log. -/
structure FetchOut where
  outcome : FetchResult (List (String × VerResult))
  dialed : Bool
  writes : List String
  qlog : List (String × Nat × FetchOutcome)
deriving Repr

/-- The method `fetcher.Fetch` of `pkg/asn2ip/asn2ip.go`: an empty AS list
returns the empty map before dialing; otherwise one connection is dialed,
`!!` (multicommand mode) is written first, the batch loop runs, and the
deferred cleanup writes `exit` on every exit path (normal, error and
panic alike). -/
def fetcherFetch (ipv4 ipv6 : Bool) (asn : List String) (conn : List String) : FetchOut :=
  if asn.length = 0 then ⟨.ok [], false, [], []⟩
  else
    let b := fetchBatch ipv4 ipv6 asn conn []
    ⟨b.outcome, true, "!!\n" :: (b.writes ++ ["exit\n"]), b.qlog⟩

/-- The record type `ASStorage` of `pkg/storage` (src/unnamed/part_001). -/
structure ASStorage where
  as : String
  ipv4 : List IPNet
  ipv6 : List IPNet
  fetchedIPv4 : Bool
  fetchedIPv6 : Bool
deriving DecidableEq, Repr

/-- The zero value `ASStorage{}` that Go returns next to an error. -/
def zeroAS : ASStorage := ⟨"", [], [], false, false⟩

/-- Errors a `Storage.Get` can return: the sentinel `ErrASNotCached`, or any
other error a backend might produce. -/
inductive CacheErr where
  | notCached
  | other (msg : String)
deriving DecidableEq, Repr

/-- Message text of a `CacheErr` (`ErrASNotCached` is
`"as not in cache"`). -/
def CacheErr.message : CacheErr → String
  | .notCached => "as not in cache"
  | .other m => m

/-- The cache-scanning loop of `cachedFetcher.Fetch`
(`pkg/asn2ip/asn2ip.go` lines 162-184): an AS goes to `uncached` when `Get`
fails with `ErrASNotCached` or when a requested version flag is unset on the
record `Get` returned (the zero record when `Get` failed); only then is a
remaining non-nil error fatal.  Cached complete records are copied into the
result with the not-requested version left empty.  The final component logs
every key passed to `Get`. -/
def scanCache {σ : Type} (get : σ → String → (ASStorage × Option CacheErr) × σ)
    (ipv4 ipv6 : Bool) : List String → σ → List (String × VerResult) →
    List String → List String →
    Except String (List (String × VerResult) × List String) × σ × List String
  | [], st, res, unc, log => (.ok (res, unc), st, log)
  | a :: rest, st, res, unc, log =>
    let g := get st a
    let r := g.1.1
    let e := g.1.2
    let st1 := g.2
    if e = some .notCached ∨ (ipv4 ∧ ¬r.fetchedIPv4) ∨ (ipv6 ∧ ¬r.fetchedIPv6) then
      scanCache get ipv4 ipv6 rest st1 res (unc ++ [a]) (log ++ [a])
    else
      match e with
      | some err =>
        (.error ("failed to fetch asn " ++ a ++ " from cache: " ++ err.message),
          st1, log ++ [a])
      | none =>
        let v : VerResult := ⟨if ipv4 then r.ipv4 else [], if ipv6 then r.ipv6 else []⟩
        scanCache get ipv4 ipv6 rest st1 (upsert res a v) unc (log ++ [a])

/-- The caching loop of `cachedFetcher.Fetch` (`pkg/asn2ip/asn2ip.go` lines
198-210): every freshly fetched AS is `Set` with the flags of *this* call
and merged into the result; a `Set` failure aborts. -/
def cacheAll {σ : Type} (set : σ → ASStorage → Option String × σ)
    (ipv4 ipv6 : Bool) : List (String × VerResult) → σ →
    List (String × VerResult) →
    Except String (List (String × VerResult)) × σ
  | [], st, res => (.ok res, st)
  | (a, v) :: rest, st, res =>
    match set st ⟨a, v.ipv4, v.ipv6, ipv4, ipv6⟩ with
    | (some e, st1) => (.error ("failed to put " ++ a ++ " on cache: " ++ e), st1)
    | (none, st1) => cacheAll set ipv4 ipv6 rest st1 (upsert res a v)

/-- What `cachedFetcher.Fetch` produces: outcome, final cache state, whether
the plain fetcher dialed, what was written, and the keys looked up in the
cache. -/
structure CFOut (σ : Type) where
  outcome : FetchResult (List (String × VerResult))
  state : σ
  dialed : Bool
  writes : List String
  gets : List String
deriving Repr

/-- The method `cachedFetcher.Fetch` of `pkg/asn2ip/asn2ip.go`,
parameterised by the cache backend's `Get`/`Set` (so that the memory
backend, or any other `storage.Storage`, can be plugged in): empty input
returns early; the cache is scanned; with nothing uncached the result is
returned without network access; otherwise the plain fetcher is called once
for the whole uncached list and its results are cached and merged. -/
def cachedFetch {σ : Type} (get : σ → String → (ASStorage × Option CacheErr) × σ)
    (set : σ → ASStorage → Option String × σ) (ipv4 ipv6 : Bool)
    (asn : List String) (conn : List String) (st : σ) : CFOut σ :=
  if asn.length = 0 then ⟨.ok [], st, false, [], []⟩
  else
    match scanCache get ipv4 ipv6 asn st [] [] [] with
    | (.error msg, st1, log) => ⟨.err msg, st1, false, [], log⟩
    | (.ok (res, unc), st1, log) =>
      if unc.length = 0 then ⟨.ok res, st1, false, [], log⟩
      else
        let f := fetcherFetch ipv4 ipv6 unc conn
        match f.outcome with
        | .ok m =>
          match cacheAll set ipv4 ipv6 m st1 res with
          | (.ok res2, st2) => ⟨.ok res2, st2, f.dialed, f.writes, log⟩
          | (.error msg, st2) => ⟨.err msg, st2, f.dialed, f.writes, log⟩
        | .err e => ⟨.err e, st1, f.dialed, f.writes, log⟩
        | .crash m => ⟨.crash m, st1, f.dialed, f.writes, log⟩

/-- The in-memory backend state of `pkg/storage` (src/unnamed/part_001):
record map, insertion-time map, and the TTL bound. -/
structure Memory where
  stor : List (String × ASStorage)
  ttl : List (String × Nat)
  maxTTL : Nat
deriving DecidableEq, Repr

/-- A fresh memory backend as `newMemory` builds it. -/
def emptyMem (ttl : Nat) : Memory := ⟨[], [], ttl⟩

/-- The method `memory.Get` (src/unnamed/part_001 lines 160-180), with the
current time passed explicitly: a missing record or a missing TTL entry is
a miss (the latter also deletes the record), and a record older than
`maxTTL` is deleted from both maps and reported as a miss. -/
def memGet (now : Nat) (m : Memory) (as : String) :
    (ASStorage × Option CacheErr) × Memory :=
  match lookupA m.stor as with
  | none => ((zeroAS, some .notCached), m)
  | some v =>
    match lookupA m.ttl as with
    | none => ((zeroAS, some .notCached), { m with stor := eraseKey m.stor as })
    | some t =>
      if now - t > m.maxTTL then
        ((zeroAS, some .notCached),
          { m with stor := eraseKey m.stor as, ttl := eraseKey m.ttl as })
      else ((v, none), m)

/-- The method `memory.Set` (src/unnamed/part_001 lines 182-186), with the
current time passed explicitly: upsert the record and stamp it `now`. -/
def memSet (now : Nat) (m : Memory) (a : ASStorage) : Option String × Memory :=
  (none, { m with stor := upsert m.stor a.as a, ttl := upsert m.ttl a.as now })

/-- The options record `StorageOptions` of `pkg/storage`. -/
structure StorageOptions where
  name : String
  ttl : Nat
deriving DecidableEq, Repr

/-- A constructed backend; the repository only has the in-memory one. -/
inductive StorageChoice where
  | memoryBackend (m : Memory)
deriving DecidableEq, Repr

/-- The error `NewStorage` can return (`ErrStorageNotFound`). -/
inductive StorageCtorErr where
  | storageNotFound
deriving DecidableEq, Repr

/-- The constructor `newMemory` (src/unnamed/part_001 lines 152-158): empty
maps, TTL taken from the options; it never fails. -/
def newMemory (opts : StorageOptions) : Except StorageCtorErr StorageChoice :=
  .ok (.memoryBackend (emptyMem opts.ttl))

/-- The registry `storages` (src/unnamed/part_001 lines 202-204). -/
def storages : List (String × (StorageOptions → Except StorageCtorErr StorageChoice)) :=
  [("", newMemory), ("default", newMemory), ("memory", newMemory)]

/-- The function `NewStorage` (src/unnamed/part_001 lines 226-232): look the
name up in the registry and run the constructor, failing with
`ErrStorageNotFound` for unregistered names. -/
def NewStorage (opts : StorageOptions) : Except StorageCtorErr StorageChoice :=
  match lookupA storages opts.name with
  | none => .error .storageNotFound
  | some f => f opts

/-- The collecting phase of `readLine` (`pkg/asn2ip/asn2ip.go` lines 42-58)
on the raw byte stream: bytes are read one at a time up to the first
`'\n'`; running out of bytes (a closed connection) is the read error the
source wraps.  Returns the collected bytes and the unread rest. -/
def readLineBytes : List Char → Except String (List Char × List Char)
  | [] => .error "failed to read next byte from connection"
  | c :: rest =>
    if c = '\n' then .ok ([], rest)
    else
      match readLineBytes rest with
      | .error e => .error e
      | .ok (l, r) => .ok (c :: l, r)

/-- Dropping trailing carriage returns, as
`strings.TrimRight(resp.String(), "\r")` does. -/
def trimCR (l : List Char) : List Char :=
  (l.reverse.dropWhile (fun c => c = '\r')).reverse

/-- The function `readLine` of `pkg/asn2ip/asn2ip.go` on the raw byte
stream: one line up to `'\n'`, trailing `'\r'`s stripped. -/
def readLine (input : List Char) : Except String (String × List Char) :=
  match readLineBytes input with
  | .error e => .error e
  | .ok (l, r) => .ok (⟨trimCR l⟩, r)

/-- A `Storage.Get` that always fails with an error other than
`ErrASNotCached`, returning the zero record next to it as the memory
backend does; used to probe the error handling of `cachedFetcher.Fetch`. -/
def badGet : Unit → String → (ASStorage × Option CacheErr) × Unit :=
  fun u _ => ((zeroAS, some (.other "boom")), u)

/-- A `Storage.Set` that always succeeds and keeps no state. -/
def noopSet : Unit → ASStorage → Option String × Unit :=
  fun u _ => (none, u)

/-! Helper lemmas about the association-list model of Go maps. -/

theorem lookupA_upsert_self {α : Type} (l : List (String × α)) (k : String) (v : α) :
    lookupA (upsert l k v) k = some v := by
  simp [upsert, lookupA]

theorem lookupA_eraseKey_self {α : Type} (l : List (String × α)) (k : String) :
    lookupA (eraseKey l k) k = none := by
  induction l with
  | nil => rfl
  | cons p rest ih =>
    by_cases h : p.1 = k <;> simp [eraseKey, lookupA, h, ih]

theorem eraseKey_idem {α : Type} (l : List (String × α)) (k : String) :
    eraseKey (eraseKey l k) k = eraseKey l k := by
  induction l with
  | nil => rfl
  | cons p rest ih =>
    by_cases h : p.1 = k <;> simp [eraseKey, h, ih]

theorem upsert_upsert {α : Type} (l : List (String × α)) (k : String) (a b : α) :
    upsert (upsert l k a) k b = upsert l k b := by
  simp [upsert, eraseKey, eraseKey_idem]

/-! Helper lemmas relating the byte-level `readLine` to the line model of a
connection: a full newline-terminated line is delivered with its trailing
carriage returns stripped, and an exhausted stream is a read failure. -/

theorem readLine_nil : readLine [] = .error "failed to read next byte from connection" := rfl

theorem readLineBytes_encodes (l rest : List Char) (h : '\n' ∉ l) :
    readLineBytes (l ++ '\n' :: rest) = .ok (l, rest) := by
  induction l with
  | nil => simp [readLineBytes]
  | cons c cs ih =>
    simp only [List.mem_cons, not_or] at h
    have hc : ¬c = '\n' := fun hh => h.1 hh.symm
    simp [readLineBytes, hc, ih h.2]

theorem readLine_encodes (l rest : List Char) (h : '\n' ∉ l) :
    readLine (l ++ '\n' :: rest) = .ok (⟨trimCR l⟩, rest) := by
  simp [readLine, readLineBytes_encodes l rest h]

/-! Helper lemmas about `parseNets`: it fails exactly on the first token
`net.ParseCIDR` rejects, and otherwise returns all parsed networks in
order. -/

theorem parseNets_of_find?_some (toks : List String) (t : String)
    (h : toks.find? (fun s => (parseCIDR s).isNone) = some t) :
    parseNets toks = .error t := by
  induction toks with
  | nil => simp [List.find?] at h
  | cons n ns ih =>
    rcases hp : parseCIDR n with _ | net
    · rw [List.find?_cons_of_pos] at h
      · simp only [Option.some.injEq] at h
        subst h
        simp [parseNets, hp]
      · simp [hp]
    · rw [List.find?_cons_of_neg] at h
      · simp [parseNets, hp, ih h]
      · simp [hp]

theorem parseNets_of_find?_none (toks : List String)
    (h : toks.find? (fun s => (parseCIDR s).isNone) = none) :
    parseNets toks = .ok (toks.filterMap parseCIDR) := by
  induction toks with
  | nil => rfl
  | cons n ns ih =>
    rcases hp : parseCIDR n with _ | net
    · rw [List.find?_cons_of_pos] at h
      · exact absurd h (by simp)
      · simp [hp]
    · rw [List.find?_cons_of_neg] at h
      · simp [parseNets, hp, ih h]
      · simp [hp]

/-! Helper lemmas about `fetch`, `fetchBatch` and `fetcherFetch`. -/

theorem fetch_writes4 (conn : List String) (as : String) :
    (fetch conn as 4).2.2 = ["!gAS" ++ as ++ "\n"] := by
  simp [fetch, fetchCmd]

theorem fetch_writes6 (conn : List String) (as : String) :
    (fetch conn as 6).2.2 = ["!6AS" ++ as ++ "\n"] := by
  simp [fetch, fetchCmd]

theorem fetcherFetch_cons (ipv4 ipv6 : Bool) (a : String) (rest conn : List String) :
    fetcherFetch ipv4 ipv6 (a :: rest) conn =
      ⟨(fetchBatch ipv4 ipv6 (a :: rest) conn []).outcome, true,
        "!!\n" :: ((fetchBatch ipv4 ipv6 (a :: rest) conn []).writes ++ ["exit\n"]),
        (fetchBatch ipv4 ipv6 (a :: rest) conn []).qlog⟩ := by
  simp [fetcherFetch]

theorem fetchBatch_tf_single (a : String) (conn : List String)
    (m : List (String × VerResult))
    (h : (fetchBatch true false [a] conn []).outcome = .ok m) :
    ∃ n4, m = [(a, ⟨n4, []⟩)] := by
  rcases hf : fetch conn a 4 with ⟨o4, c4, w4⟩
  cases o4 with
  | ok nets4 =>
    refine ⟨nets4, ?_⟩
    simp [fetchBatch, hf, upsert, eraseKey] at h
    exact h.symm
  | err e => simp [fetchBatch, hf] at h
  | crash g => simp [fetchBatch, hf] at h

theorem fetchBatch_ft_single (a : String) (conn : List String)
    (m : List (String × VerResult))
    (h : (fetchBatch false true [a] conn []).outcome = .ok m) :
    ∃ n6, m = [(a, ⟨[], n6⟩)] := by
  rcases hf : fetch conn a 6 with ⟨o6, c6, w6⟩
  cases o6 with
  | ok nets6 =>
    refine ⟨nets6, ?_⟩
    simp [fetchBatch, hf, upsert, eraseKey] at h
    exact h.symm
  | err e => simp [fetchBatch, hf] at h
  | crash g => simp [fetchBatch, hf] at h

theorem fetchBatch_qlog_err (ipv4 ipv6 : Bool) (asn : List String) (a : String)
    (v : Nat) (e : String) :
    ∀ conn : List String, ∀ acc : List (String × VerResult),
      (a, v, FetchResult.err e) ∈ (fetchBatch ipv4 ipv6 asn conn acc).qlog →
      (fetchBatch ipv4 ipv6 asn conn acc).outcome = .err e := by
  induction asn with
  | nil => intro conn acc h; simp [fetchBatch] at h
  | cons b rest ih =>
    intro conn acc h
    cases ipv4 with
    | true =>
      rcases hf : fetch conn b 4 with ⟨o4, c4, w4⟩
      cases o4 with
      | ok nets4 =>
        cases ipv6 with
        | true =>
          rcases hg : fetch c4 b 6 with ⟨o6, c6, w6⟩
          cases o6 with
          | ok nets6 =>
            simp [fetchBatch, hf, hg] at h ⊢
            exact ih _ _ h
          | err e2 =>
            simp [fetchBatch, hf, hg] at h ⊢
            exact h.2.2.symm
          | crash g2 =>
            simp [fetchBatch, hf, hg] at h
        | false =>
          simp [fetchBatch, hf] at h ⊢
          exact ih _ _ h
      | err e2 =>
        simp [fetchBatch, hf] at h ⊢
        exact h.2.2.symm
      | crash g2 =>
        simp [fetchBatch, hf] at h
    | false =>
      cases ipv6 with
      | true =>
        rcases hf : fetch conn b 6 with ⟨o6, c6, w6⟩
        cases o6 with
        | ok nets6 =>
          simp [fetchBatch, hf] at h ⊢
          exact ih _ _ h
        | err e2 =>
          simp [fetchBatch, hf] at h ⊢
          exact h.2.2.symm
        | crash g2 =>
          simp [fetchBatch, hf] at h
      | false =>
        simp [fetchBatch] at h ⊢
        exact ih _ _ h

theorem fetchBatch_writes_shape (ipv4 ipv6 : Bool) (asn : List String) :
    ∀ conn : List String, ∀ acc : List (String × VerResult),
      ∀ w ∈ (fetchBatch ipv4 ipv6 asn conn acc).writes,
        ∃ x, w = "!gAS" ++ x ++ "\n" ∨ w = "!6AS" ++ x ++ "\n" := by
  induction asn with
  | nil => intro conn acc w hw; simp [fetchBatch] at hw
  | cons b rest ih =>
    intro conn acc w hw
    cases ipv4 with
    | true =>
      rcases hf : fetch conn b 4 with ⟨o4, c4, w4⟩
      have hw4 : w4 = ["!gAS" ++ b ++ "\n"] := by
        have hh := fetch_writes4 conn b
        rw [hf] at hh
        exact hh
      cases o4 with
      | ok nets4 =>
        cases ipv6 with
        | true =>
          rcases hg : fetch c4 b 6 with ⟨o6, c6, w6⟩
          have hw6 : w6 = ["!6AS" ++ b ++ "\n"] := by
            have hh := fetch_writes6 c4 b
            rw [hg] at hh
            exact hh
          cases o6 with
          | ok nets6 =>
            simp [fetchBatch, hf, hg, hw4, hw6] at hw
            rcases hw with hw | hw | hw
            · exact ⟨b, Or.inl hw⟩
            · exact ⟨b, Or.inr hw⟩
            · exact ih _ _ w hw
          | err e2 =>
            simp [fetchBatch, hf, hg, hw4, hw6] at hw
            rcases hw with hw | hw
            · exact ⟨b, Or.inl hw⟩
            · exact ⟨b, Or.inr hw⟩
          | crash g2 =>
            simp [fetchBatch, hf, hg, hw4, hw6] at hw
            rcases hw with hw | hw
            · exact ⟨b, Or.inl hw⟩
            · exact ⟨b, Or.inr hw⟩
        | false =>
          simp [fetchBatch, hf, hw4] at hw
          rcases hw with hw | hw
          · exact ⟨b, Or.inl hw⟩
          · exact ih _ _ w hw
      | err e2 =>
        simp [fetchBatch, hf, hw4] at hw
        exact ⟨b, Or.inl hw⟩
      | crash g2 =>
        simp [fetchBatch, hf, hw4] at hw
        exact ⟨b, Or.inl hw⟩
    | false =>
      cases ipv6 with
      | true =>
        rcases hf : fetch conn b 6 with ⟨o6, c6, w6⟩
        have hw6 : w6 = ["!6AS" ++ b ++ "\n"] := by
          have hh := fetch_writes6 conn b
          rw [hf] at hh
          exact hh
        cases o6 with
        | ok nets6 =>
          simp [fetchBatch, hf, hw6] at hw
          rcases hw with hw | hw
          · exact ⟨b, Or.inr hw⟩
          · exact ih _ _ w hw
        | err e2 =>
          simp [fetchBatch, hf, hw6] at hw
          exact ⟨b, Or.inr hw⟩
        | crash g2 =>
          simp [fetchBatch, hf, hw6] at hw
          exact ⟨b, Or.inr hw⟩
      | false =>
        simp [fetchBatch] at hw
        exact ih _ _ w hw
theorem gcmd_ne_enable (x : String) : "!gAS" ++ x ++ "\n" ≠ "!!\n" := by
  intro h
  have hl := congrArg String.length h
  rw [String.length_append, String.length_append] at hl
  have h1 : ("!gAS" : String).length = 4 := rfl
  have h2 : ("\n" : String).length = 1 := rfl
  have h3 : ("!!\n" : String).length = 3 := rfl
  rw [h1, h2, h3] at hl
  omega

theorem cmd6_ne_enable (x : String) : "!6AS" ++ x ++ "\n" ≠ "!!\n" := by
  intro h
  have hl := congrArg String.length h
  rw [String.length_append, String.length_append] at hl
  have h1 : ("!6AS" : String).length = 4 := rfl
  have h2 : ("\n" : String).length = 1 := rfl
  have h3 : ("!!\n" : String).length = 3 := rfl
  rw [h1, h2, h3] at hl
  omega

/-! Claim theorems. -/

/-- C2: if any per-AS/per-version query of a batch fails with an error
(not-found marker or protocol error), `fetcher.Fetch` returns exactly that
error — and with it no mapping at all, so results accumulated for earlier
AS numbers of the batch are never returned. -/
theorem c2_batch_abort_on_query_error (ipv4 ipv6 : Bool) (asn conn : List String)
    (a : String) (v : Nat) (e : String)
    (h : (a, v, FetchResult.err e) ∈ (fetcherFetch ipv4 ipv6 asn conn).qlog) :
    (fetcherFetch ipv4 ipv6 asn conn).outcome = .err e := by
  cases asn with
  | nil => simp [fetcherFetch] at h
  | cons b rest =>
    simp only [fetcherFetch_cons] at h ⊢
    exact fetchBatch_qlog_err ipv4 ipv6 (b :: rest) a v e conn [] h

/-- Witness for C2 at a concrete batch: the first AS resolves, the second
gets the `D` marker, and the whole call returns the not-found error. -/
theorem c2_batch_abort_on_query_error_witness :
    ("2", 4, FetchResult.err "as 2 not found")
        ∈ (fetcherFetch true false ["1", "2"] ["A1", "1.2.3.0/24", "C", "D"]).qlog
    ∧ (fetcherFetch true false ["1", "2"] ["A1", "1.2.3.0/24", "C", "D"]).outcome
        = .err "as 2 not found" :=
  ⟨by decide,
    c2_batch_abort_on_query_error true false ["1", "2"]
      ["A1", "1.2.3.0/24", "C", "D"] "2" 4 "as 2 not found" (by decide)⟩

/-- C3, counterexample: in a query issued with version 4 (IPv4), a data
line holding an IPv6 prefix is accepted and the query completes
successfully with that IPv6 network in its result — `net.ParseCIDR` is
never checked against the requested family, contradicting the claim that
such a token must fail the query. -/
theorem c3_family_counterexample :
    (fetch ["A1", "2001:db8::/32", "C"] "64500" 4).1
      = .ok [⟨false, 0x20010db8 * 2 ^ 96, 32⟩] := by decide

/-- C3, amended: in the collecting state every data line is split on single
spaces, and every token must parse as a valid CIDR prefix of either IP
family (the family is never compared with the requested version); the first
token that fails to parse fails the whole query with an error naming that
token and the AS number, and if all tokens parse the loop continues with
the parsed networks appended. -/
theorem c3_collecting_tokens_amended (as line : String) (rest : List String)
    (resp : List IPNet) (hD : line ≠ "D") (hC : line ≠ "C") :
    (∀ t, (splitSp line).find? (fun s => (parseCIDR s).isNone) = some t →
      fetchLoop as (line :: rest) "response" resp
        = (.err ("failed to parse network " ++ t ++ " for as " ++ as), rest))
    ∧ ((splitSp line).find? (fun s => (parseCIDR s).isNone) = none →
      fetchLoop as (line :: rest) "response" resp
        = fetchLoop as rest "response" (resp ++ (splitSp line).filterMap parseCIDR)) := by
  have hs : ¬(("response" : String) = "start") := by decide
  constructor
  · intro t ht
    have hp := parseNets_of_find?_some _ _ ht
    simp [fetchLoop, hD, hC, hs, hp]
  · intro ht
    have hp := parseNets_of_find?_none _ ht
    simp [fetchLoop, hD, hC, hs, hp]

/-- Witness for the amended C3 at a concrete line: the token
`not-a-cidr` fails the query with an error naming it and the AS. -/
theorem c3_collecting_tokens_amended_witness :
    fetchLoop "9" ["not-a-cidr", "C"] "response" []
      = (.err ("failed to parse network " ++ "not-a-cidr" ++ " for as " ++ "9"), ["C"]) :=
  (c3_collecting_tokens_amended "9" "not-a-cidr" ["C"] [] (by decide) (by decide)).1
    "not-a-cidr" (by decide)

/-- C5: evaluating the code at the failing input — a connection that
delivers only the header line `A1` and then closes.  The read failure is
passed to `panic(err)` (the `crash` outcome), so it reaches no caller as an
error result; the byte-level `readLine` on the exhausted stream shows the
wrapped read error the source panics with. -/
theorem c5_read_failure_panics :
    (fetch ["A1"] "64500" 4).1 = .crash "failed to read next byte from connection"
    ∧ readLine [] = .error "failed to read next byte from connection" :=
  ⟨by decide, rfl⟩

/-- C7: with an empty AS list, both `fetcher.Fetch` and
`cachedFetcher.Fetch` return an empty mapping and no error, without dialing
a connection, without writing anything and without a single cache
lookup. -/
theorem c7_empty_input_no_work (ipv4 ipv6 : Bool) (conn : List String) {σ : Type}
    (get : σ → String → (ASStorage × Option CacheErr) × σ)
    (set : σ → ASStorage → Option String × σ) (st : σ) :
    fetcherFetch ipv4 ipv6 [] conn = ⟨.ok [], false, [], []⟩
    ∧ cachedFetch get set ipv4 ipv6 [] conn st = ⟨.ok [], st, false, [], []⟩ :=
  ⟨rfl, rfl⟩

/-- C8: `NewStorage` fails with `ErrStorageNotFound` exactly for backend
names outside the registry, and succeeds with the in-memory backend for the
registered names. -/
theorem c8_registry_lookup (opts : StorageOptions) :
    (opts.name ∉ ["", "default", "memory"] → NewStorage opts = .error .storageNotFound)
    ∧ (opts.name ∈ ["", "default", "memory"] →
        NewStorage opts = .ok (.memoryBackend ⟨[], [], opts.ttl⟩)) := by
  constructor
  · intro h
    simp only [List.mem_cons, List.not_mem_nil, or_false, not_or] at h
    obtain ⟨h1, h2, h3⟩ := h
    have g1 : ¬(("" : String) = opts.name) := fun hh => h1 hh.symm
    have g2 : ¬(("default" : String) = opts.name) := fun hh => h2 hh.symm
    have g3 : ¬(("memory" : String) = opts.name) := fun hh => h3 hh.symm
    simp [NewStorage, storages, lookupA, g1, g2, g3]
  · intro h
    simp only [List.mem_cons, List.not_mem_nil, or_false] at h
    rcases h with h | h | h <;>
      simp [NewStorage, storages, lookupA, h, newMemory, emptyMem]

/-- Witness for C8: an unregistered name fails, a registered one
succeeds. -/
theorem c8_registry_lookup_witness :
    NewStorage ⟨"redis", 3⟩ = .error .storageNotFound
    ∧ NewStorage ⟨"", 5⟩ = .ok (.memoryBackend ⟨[], [], 5⟩) :=
  ⟨(c8_registry_lookup ⟨"redis", 3⟩).1 (by decide),
    (c8_registry_lookup ⟨"", 5⟩).2 (by decide)⟩

/-- C10: the registry maps exactly the names `""`, `"default"` and
`"memory"` to the in-memory constructor, and in particular the empty
backend name constructs the in-memory backend rather than failing. -/
theorem c10_registry_names (name : String) (t : Nat) :
    lookupA storages name
      = (if name = "" ∨ name = "default" ∨ name = "memory" then some newMemory else none)
    ∧ NewStorage ⟨"", t⟩ = .ok (.memoryBackend ⟨[], [], t⟩) := by
  constructor
  · by_cases h1 : name = ""
    · subst h1
      simp [storages, lookupA]
    · by_cases h2 : name = "default"
      · subst h2
        simp [storages, lookupA]
      · by_cases h3 : name = "memory"
        · subst h3
          simp [storages, lookupA]
        · have g1 : ¬(("" : String) = name) := fun hh => h1 hh.symm
          have g2 : ¬(("default" : String) = name) := fun hh => h2 hh.symm
          have g3 : ¬(("memory" : String) = name) := fun hh => h3 hh.symm
          simp [storages, lookupA, g1, g2, g3, h1, h2, h3]
  · rfl

/-- C9: the IPv4 query writes exactly `!gAS<asn>\n`, the IPv6 query exactly
`!6AS<asn>\n`, any other version is rejected with an error before anything
is written, and on a nonempty batch the enable sequence `!!\n` is the first
write and is never written again. -/
theorem c9_commands (as : String) (conn : List String) (v : Nat) (ipv4 ipv6 : Bool)
    (a : String) (asn : List String) :
    (fetch conn as 4).2.2 = ["!gAS" ++ as ++ "\n"]
    ∧ (fetch conn as 6).2.2 = ["!6AS" ++ as ++ "\n"]
    ∧ (v ≠ 4 → v ≠ 6 →
        fetch conn as v = (.err ("unknown ip protocol version " ++ toString v), conn, []))
    ∧ (∃ body, (fetcherFetch ipv4 ipv6 (a :: asn) conn).writes = "!!\n" :: body
        ∧ "!!\n" ∉ body) := by
  refine ⟨fetch_writes4 conn as, fetch_writes6 conn as, ?_, ?_⟩
  · intro h4 h6
    simp [fetch, fetchCmd, h4, h6]
  · refine ⟨(fetchBatch ipv4 ipv6 (a :: asn) conn []).writes ++ ["exit\n"], ?_, ?_⟩
    · simp [fetcherFetch]
    · intro hmem
      rcases List.mem_append.mp hmem with hm | hm
      · rcases fetchBatch_writes_shape ipv4 ipv6 (a :: asn) conn [] _ hm with ⟨x, hx | hx⟩
        · exact gcmd_ne_enable x hx.symm
        · exact cmd6_ne_enable x hx.symm
      · have hne : ("!!\n" : String) ≠ "exit\n" := by decide
        simp only [List.mem_singleton] at hm
        exact hne hm

/-- Witness for C9 at concrete inputs: version 5 is rejected without
writes, and a nonempty batch has `!!\n` first and only once. -/
theorem c9_commands_witness :
    fetch [] "1" 5 = (.err ("unknown ip protocol version " ++ toString 5), [], [])
    ∧ ∃ body, (fetcherFetch true false ["1"] []).writes = "!!\n" :: body
        ∧ "!!\n" ∉ body :=
  ⟨(c9_commands "1" [] 5 true false "1" []).2.2.1 (by decide) (by decide),
    (c9_commands "1" [] 5 true false "1" []).2.2.2⟩

/-- C4, counterexample: a cache whose `Get` fails with an error other than
`ErrASNotCached` (returning the zero record next to it, as the memory
backend does) does not abort `cachedFetcher.Fetch` when a version is
requested: the zero record's unset flag makes the uncached branch win, the
AS is silently re-fetched over the network, and the call succeeds. -/
theorem c4_other_error_counterexample :
    (badGet () "7").1.2 = some (.other "boom")
    ∧ (badGet () "7").1.2 ≠ some .notCached
    ∧ (cachedFetch badGet noopSet true false ["7"] ["A1", "1.2.3.0/24", "C"] ()).outcome
        = .ok [("7", ⟨[⟨true, 16909056, 24⟩], []⟩)] := by decide

/-- C4, amended: an AS is treated as uncached exactly when `Get` fails with
`ErrASNotCached`, or `ipv4` is requested while the returned record's
`FetchedIPv4` is false, or `ipv6` is requested while `FetchedIPv6` is false
(on failure the returned record is the backend's zero record); a `Get`
failure other than `ErrASNotCached` aborts the call with that error only
when this uncached condition does not hold — otherwise the failing AS is
silently treated as uncached. -/
theorem c4_uncached_condition_amended {σ : Type}
    (get : σ → String → (ASStorage × Option CacheErr) × σ)
    (set : σ → ASStorage → Option String × σ) (ipv4 ipv6 : Bool) (a : String)
    (rest asn conn : List String) (st st1 : σ) (r : ASStorage) (e? : Option CacheErr)
    (res : List (String × VerResult)) (unc log : List String)
    (hget : get st a = ((r, e?), st1)) :
    ((e? = some .notCached ∨ (ipv4 ∧ ¬r.fetchedIPv4) ∨ (ipv6 ∧ ¬r.fetchedIPv6)) →
      scanCache get ipv4 ipv6 (a :: rest) st res unc log
        = scanCache get ipv4 ipv6 rest st1 res (unc ++ [a]) (log ++ [a]))
    ∧ (¬(e? = some .notCached ∨ (ipv4 ∧ ¬r.fetchedIPv4) ∨ (ipv6 ∧ ¬r.fetchedIPv6)) →
        ∀ err, e? = some err →
        scanCache get ipv4 ipv6 (a :: rest) st res unc log
          = (.error ("failed to fetch asn " ++ a ++ " from cache: " ++ err.message),
              st1, log ++ [a]))
    ∧ (∀ msg st2 log2,
        scanCache get ipv4 ipv6 asn st [] [] [] = (.error msg, st2, log2) →
        (cachedFetch get set ipv4 ipv6 asn conn st).outcome = .err msg) := by
  refine ⟨?_, ?_, ?_⟩
  · intro hcond
    simp only [scanCache, hget]
    rw [if_pos hcond]
  · intro hcond err herr
    subst herr
    simp only [scanCache, hget]
    rw [if_neg hcond]
  · intro msg st2 log2 hscan
    cases asn with
    | nil => simp [scanCache] at hscan
    | cons b bs => simp [cachedFetch, hscan]

/-- Witness for the amended C4: with no version requested the uncached
condition fails and the non-`NotCached` error does abort the call. -/
theorem c4_uncached_condition_amended_witness :
    scanCache badGet false false ["a"] () [] [] []
      = (.error ("failed to fetch asn " ++ "a" ++ " from cache: " ++ "boom"), (), [] ++ ["a"])
    ∧ (cachedFetch badGet noopSet false false ["a"] [] ()).outcome
      = .err "failed to fetch asn a from cache: boom" := by
  have T := c4_uncached_condition_amended badGet noopSet false false "a" [] ["a"]
      [] () () zeroAS (some (.other "boom")) [] [] [] rfl
  exact ⟨T.2.1 (by decide) (.other "boom") rfl,
    T.2.2 "failed to fetch asn a from cache: boom" () ["a"] rfl⟩

/-- C6: a record set at time `T` in the memory backend with TTL `t` is, at
any strictly later instant than `T + t`, reported as `ErrASNotCached` and
deleted from both maps, and a second `Get` at the same instant still
reports `ErrASNotCached` without further change. -/
theorem c6_ttl_expiry_sticky (t T now : Nat) (m : Memory) (rec : ASStorage)
    (hm : m.maxTTL = t) (h : T + t < now) :
    (memGet now (memSet T m rec).2 rec.as).1 = (zeroAS, some .notCached)
    ∧ lookupA (memGet now (memSet T m rec).2 rec.as).2.stor rec.as = none
    ∧ lookupA (memGet now (memSet T m rec).2 rec.as).2.ttl rec.as = none
    ∧ memGet now (memGet now (memSet T m rec).2 rec.as).2 rec.as
        = ((zeroAS, some .notCached), (memGet now (memSet T m rec).2 rec.as).2) := by
  have hgt : now - T > m.maxTTL := by omega
  simp [memGet, memSet, lookupA_upsert_self, hgt, lookupA_eraseKey_self]

/-- Witness for C6 at a concrete TTL and clock. -/
theorem c6_ttl_expiry_sticky_witness :
    (memGet 6 (memSet 0 (emptyMem 5) ⟨"x", [], [], true, true⟩).2 "x").1
      = (zeroAS, some .notCached)
    ∧ lookupA (memGet 6 (memSet 0 (emptyMem 5) ⟨"x", [], [], true, true⟩).2 "x").2.stor "x"
      = none
    ∧ lookupA (memGet 6 (memSet 0 (emptyMem 5) ⟨"x", [], [], true, true⟩).2 "x").2.ttl "x"
      = none
    ∧ memGet 6 (memGet 6 (memSet 0 (emptyMem 5) ⟨"x", [], [], true, true⟩).2 "x").2 "x"
        = ((zeroAS, some .notCached),
            (memGet 6 (memSet 0 (emptyMem 5) ⟨"x", [], [], true, true⟩).2 "x").2) :=
  c6_ttl_expiry_sticky 5 0 6 (emptyMem 5) ⟨"x", [], [], true, true⟩ rfl (by decide)

/-- C1: starting from a fresh memory cache with TTL `t`, a successful
cached fetch of `X` with `ipv4=true, ipv6=false` at time `T1` followed by a
successful cached fetch of `X` with `ipv4=false, ipv6=true` at a time `T2`
before TTL expiry makes the second call invoke the plain fetcher (it
dials), and afterwards the cache record stored for `X` carries
`FetchedIPv4 = false` and `FetchedIPv6 = true` — the record is overwritten
with the second call's flags, discarding the first call's IPv4
completeness. -/
theorem c1_roundtrip_flag_overwrite (X : String) (t T1 T2 : Nat)
    (conn1 conn2 : List String) (h2 : T2 - T1 ≤ t)
    (h1 : (cachedFetch (memGet T1) (memSet T1) true false [X] conn1
        (emptyMem t)).outcome.isOk = true)
    (h3 : (cachedFetch (memGet T2) (memSet T2) false true [X] conn2
        (cachedFetch (memGet T1) (memSet T1) true false [X] conn1
          (emptyMem t)).state).outcome.isOk = true) :
    (cachedFetch (memGet T2) (memSet T2) false true [X] conn2
        (cachedFetch (memGet T1) (memSet T1) true false [X] conn1
          (emptyMem t)).state).dialed = true
    ∧ (lookupA (cachedFetch (memGet T2) (memSet T2) false true [X] conn2
          (cachedFetch (memGet T1) (memSet T1) true false [X] conn1
            (emptyMem t)).state).state.stor X).map
        (fun r => (r.fetchedIPv4, r.fetchedIPv6)) = some (false, true) := by
  have hscan1 : scanCache (memGet T1) true false [X] (emptyMem t) [] [] []
      = (.ok ([], [X]), emptyMem t, [X]) := rfl
  cases hO1 : (fetcherFetch true false [X] conn1).outcome with
  | err e1 => simp [cachedFetch, hscan1, hO1, FetchResult.isOk] at h1
  | crash g1 => simp [cachedFetch, hscan1, hO1, FetchResult.isOk] at h1
  | ok m1 =>
    have hO1b : (fetchBatch true false [X] conn1 []).outcome = .ok m1 := by
      simp only [fetcherFetch_cons] at hO1
      exact hO1
    obtain ⟨n4, rfl⟩ := fetchBatch_tf_single X conn1 m1 hO1b
    have hca1 : cacheAll (memSet T1) true false [(X, ⟨n4, []⟩)] (emptyMem t) []
        = (.ok [(X, ⟨n4, []⟩)],
            ⟨[(X, ⟨X, n4, [], true, false⟩)], [(X, T1)], t⟩) := rfl
    have hst1 : (cachedFetch (memGet T1) (memSet T1) true false [X] conn1
        (emptyMem t)).state = ⟨[(X, ⟨X, n4, [], true, false⟩)], [(X, T1)], t⟩ := by
      simp [cachedFetch, hscan1, hO1, hca1]
    rw [hst1] at h3 ⊢
    have hngt : ¬(T2 - T1 > t) := by omega
    have hget2 : memGet T2 ⟨[(X, ⟨X, n4, [], true, false⟩)], [(X, T1)], t⟩ X
        = ((⟨X, n4, [], true, false⟩, none),
            ⟨[(X, ⟨X, n4, [], true, false⟩)], [(X, T1)], t⟩) := by
      simp [memGet, lookupA, hngt]
    have hscan2 : scanCache (memGet T2) false true [X]
          ⟨[(X, ⟨X, n4, [], true, false⟩)], [(X, T1)], t⟩ [] [] []
        = (.ok ([], [X]), ⟨[(X, ⟨X, n4, [], true, false⟩)], [(X, T1)], t⟩, [X]) := by
      simp [scanCache, hget2]
    cases hO2 : (fetcherFetch false true [X] conn2).outcome with
    | err e2 => simp [cachedFetch, hscan2, hO2, FetchResult.isOk] at h3
    | crash g2 => simp [cachedFetch, hscan2, hO2, FetchResult.isOk] at h3
    | ok m2 =>
      have hO2b : (fetchBatch false true [X] conn2 []).outcome = .ok m2 := by
        simp only [fetcherFetch_cons] at hO2
        exact hO2
      obtain ⟨n6, rfl⟩ := fetchBatch_ft_single X conn2 m2 hO2b
      have hca2 : cacheAll (memSet T2) false true [(X, ⟨[], n6⟩)]
            ⟨[(X, ⟨X, n4, [], true, false⟩)], [(X, T1)], t⟩ []
          = (.ok [(X, ⟨[], n6⟩)],
              ⟨[(X, ⟨X, [], n6, false, true⟩)], [(X, T2)], t⟩) := by
        simp [cacheAll, memSet, upsert, eraseKey]
      have hdial : (fetcherFetch false true [X] conn2).dialed = true := by
        simp [fetcherFetch]
      constructor
      · simp [cachedFetch, hscan2, hO2, hca2, hdial]
      · have hstate2 : (cachedFetch (memGet T2) (memSet T2) false true [X] conn2
            ⟨[(X, ⟨X, n4, [], true, false⟩)], [(X, T1)], t⟩).state
            = ⟨[(X, ⟨X, [], n6, false, true⟩)], [(X, T2)], t⟩ := by
          simp [cachedFetch, hscan2, hO2, hca2]
        rw [hstate2]
        simp [lookupA]

/-- Witness for C1 at a concrete round trip: IPv4-only fetch at time 0,
IPv6-only fetch at time 5 with TTL 10. -/
theorem c1_roundtrip_flag_overwrite_witness :
    (cachedFetch (memGet 5) (memSet 5) false true ["64500"] ["A1", "C"]
        (cachedFetch (memGet 0) (memSet 0) true false ["64500"]
          ["A1", "1.2.3.0/24", "C"] (emptyMem 10)).state).dialed = true
    ∧ (lookupA (cachedFetch (memGet 5) (memSet 5) false true ["64500"] ["A1", "C"]
          (cachedFetch (memGet 0) (memSet 0) true false ["64500"]
            ["A1", "1.2.3.0/24", "C"] (emptyMem 10)).state).state.stor "64500").map
        (fun r => (r.fetchedIPv4, r.fetchedIPv6)) = some (false, true) :=
  c1_roundtrip_flag_overwrite "64500" 10 0 5 ["A1", "1.2.3.0/24", "C"] ["A1", "C"]
    (by decide) (by decide) (by decide)
